import Mathlib

/-!
Shallow embedding of the TDS-solver service (`app.py`): the file extractors
(`process_zip_file`, `process_csv_file`, `extract_data_from_file`), the
dispatcher's `allowed_file` check, and the answer resolver
(`get_answer_from_ai`), together with theorems settling the stated
properties of the extraction and resolution pipeline.

Python strings are modelled as Lean `String`, byte streams as `List Nat`
(each entry `< 256`), Python lists as `List`, and Python dicts (which
iterate in insertion order) as association lists `List (String × α)`.
A Python value that may be absent (a dict key that may be unset, or
`None`) is an `Option`; Python truthiness of an optional string
(`None` and `""` are falsy) is `truthyOpt`.
-/

namespace TdsSolver

/-- Python truthiness of an optional string: `None` and `""` are falsy,
any other string is truthy. -/
def truthyOpt : Option String → Bool
  | none => false
  | some s => !(s == "")

/-! ### Tabular (CSV) row extraction: `process_csv_file`, lines 63-86

The decode and `csv.reader` steps are modelled separately (below); this part
captures lines 68-86, which operate on the parsed list of rows. -/

/-- The dictionary returned by `process_csv_file` (lines 81-86):
`headers`, `data`, `answer_col_index` (−1 when absent, mirroring the
Python sentinel), and the optional `direct_answer`. -/
structure CSVContent where
  headers : List String
  data : List (List String)
  answer_col_index : Int
  direct_answer : Option String
  deriving Repr, DecidableEq

/-- Lines 68-86 of `process_csv_file`: `headers = rows[0] if rows else []`,
`data = rows[1:]`, `answer_col_index = headers.index('answer')` when
`'answer' in headers` else `-1`, and
`direct_answer = data[0][answer_col_index] if len(data[0]) > answer_col_index
else None` guarded by `answer_col_index >= 0 and data`.  The bounds-checked
indexing `data[0][answer_col_index]` is modelled with `List.get?`, which is
`some _` exactly under the length guard. -/
def process_csv_rows (rows : List (List String)) : CSVContent :=
  let headers := rows.headD []
  let data := rows.drop 1
  let answer_col_index : Int :=
    if "answer" ∈ headers then (headers.indexOf "answer" : Nat) else -1
  let direct_answer : Option String :=
    if 0 ≤ answer_col_index ∧ data ≠ [] then
      let idx := answer_col_index.toNat
      let row0 := data.headD []
      if idx < row0.length then row0.get? idx else none
    else none
  ⟨headers, data, answer_col_index, direct_answer⟩

/-! ### UTF-8 decoding: `bytes.decode("utf-8")` and `decode('utf-8', errors='ignore')`

A model of CPython's UTF-8 decoder over byte lists.  `utf8DecodeAux`
returns the decoded code points together with a flag that is `true` iff the
whole input was valid UTF-8 (RFC 3629: no overlong forms, no surrogates,
nothing above U+10FFFF).  Invalid bytes are dropped and the flag cleared,
which is the `errors='ignore'` behaviour; strict decoding refuses the
result whenever the flag is `false`. -/

/-- A UTF-8 continuation byte: `0x80 ≤ b < 0xC0`. -/
def isCont (b : Nat) : Bool := 0x80 ≤ b && b < 0xC0

/-- Allowed first continuation byte after a three-byte lead `b`
(excludes overlong forms for `0xE0` and surrogates for `0xED`). -/
def cont3Ok (b c1 : Nat) : Bool :=
  if b == 0xE0 then 0xA0 ≤ c1 && c1 ≤ 0xBF
  else if b == 0xED then 0x80 ≤ c1 && c1 ≤ 0x9F
  else isCont c1

/-- Allowed first continuation byte after a four-byte lead `b`
(excludes overlong forms for `0xF0` and code points above U+10FFFF for `0xF4`). -/
def cont4Ok (b c1 : Nat) : Bool :=
  if b == 0xF0 then 0x90 ≤ c1 && c1 ≤ 0xBF
  else if b == 0xF4 then 0x80 ≤ c1 && c1 ≤ 0x8F
  else isCont c1

/-- Parse one multi-byte UTF-8 sequence: given the lead byte `b` (already
known to be ≥ `0x80`) and the remaining bytes, return the decoded code
point and the bytes after the sequence, or `none` if the sequence is
invalid (bad lead, bad continuation, overlong, surrogate, or truncated). -/
def utf8Step (b : Nat) (rest : List Nat) : Option (Nat × List Nat) :=
  if 0xC2 ≤ b && b ≤ 0xDF then
    match rest with
    | c1 :: rest1 =>
      if isCont c1 then some ((b - 0xC0) * 0x40 + (c1 - 0x80), rest1) else none
    | [] => none
  else if 0xE0 ≤ b && b ≤ 0xEF then
    match rest with
    | c1 :: c2 :: rest2 =>
      if cont3Ok b c1 && isCont c2 then
        some ((b - 0xE0) * 0x1000 + (c1 - 0x80) * 0x40 + (c2 - 0x80), rest2)
      else none
    | _ => none
  else if 0xF0 ≤ b && b ≤ 0xF4 then
    match rest with
    | c1 :: c2 :: c3 :: rest3 =>
      if cont4Ok b c1 && isCont c2 && isCont c3 then
        some ((b - 0xF0) * 0x40000 + (c1 - 0x80) * 0x1000 +
              (c2 - 0x80) * 0x40 + (c3 - 0x80), rest3)
      else none
    | _ => none
  else none

theorem utf8Step_length {b cp : Nat} {rest rest' : List Nat}
    (h : utf8Step b rest = some (cp, rest')) : rest'.length ≤ rest.length := by
  simp only [utf8Step] at h
  repeat' split at h
  all_goals simp_all
  all_goals omega

/-- Decode a byte list as UTF-8: produces the code points of all valid
sequences (dropping invalid bytes, as `errors='ignore'` does) and a
validity flag that is `true` iff no invalid sequence was encountered. -/
def utf8DecodeAux : List Nat → List Nat × Bool
  | [] => ([], true)
  | b :: rest =>
    if b < 0x80 then
      let r := utf8DecodeAux rest
      (b :: r.1, r.2)
    else
      match h : utf8Step b rest with
      | some (cp, rest') =>
        let r := utf8DecodeAux rest'
        (cp :: r.1, r.2)
      | none =>
        -- invalid byte: `errors='ignore'` drops it; strict decoding fails
        let r := utf8DecodeAux rest
        (r.1, false)
termination_by bytes => bytes.length
decreasing_by all_goals
  (simp only [List.length_cons]
   first
     | omega
     | exact Nat.lt_succ_of_le (utf8Step_length h))

/-- Model of `data.decode('utf-8', errors='ignore')`: lossy decode, always succeeds,
invalid bytes are dropped. -/
def pyDecodeIgnore (bytes : List Nat) : String :=
  String.mk ((utf8DecodeAux bytes).1.map Char.ofNat)

/-- Model of `data.decode("utf-8")`: strict decode, `none` models the
`UnicodeDecodeError` raised on any invalid sequence. -/
def pyDecodeStrict (bytes : List Nat) : Option String :=
  if (utf8DecodeAux bytes).2 then some (pyDecodeIgnore bytes) else none

/-! ### CSV parsing: `csv.reader` with the default dialect

Delimiter `,`, quote `"`, doublequote on, no escape char, non-strict.
A state machine over the character list; row and field accumulators are
kept reversed and reversed once when emitted. -/

/-- Parser state of the `csv.reader` model. -/
inductive CsvState
  | startField
  | inField
  | inQuoted
  | quoteInQuoted
  deriving Repr, DecidableEq

/-- Close the current row: the pending field joins the row unless the row
is empty and the parser sits at a fresh field start (a blank line yields
`[]`, as `csv.reader` does). -/
def csvCloseRow (st : CsvState) (field : List Char) (row : List String) :
    List String :=
  if st == CsvState.startField && row.isEmpty && field.isEmpty then []
  else (String.mk field.reverse :: row).reverse

/-- After a bare `\r` record terminator, a directly following `\n` belongs
to the same `\r\n` terminator and is consumed with it. -/
def dropLfAfterCr : List Char → List Char
  | '\n' :: cs => cs
  | cs => cs

theorem dropLfAfterCr_length (cs : List Char) :
    (dropLfAfterCr cs).length ≤ cs.length := by
  unfold dropLfAfterCr; split <;> simp

/-- The `csv.reader` state machine.  `field` and `row` are the reversed
current field and row; `acc` is the reversed list of finished rows.
`\n`, `\r\n` and `\r` end a record outside quotes. -/
def csvAux : List Char → CsvState → List Char → List String →
    List (List String) → List (List String)
  | [], st, field, row, acc =>
    if st == CsvState.startField && row.isEmpty && field.isEmpty then
      acc.reverse
    else
      (csvCloseRow st field row :: acc).reverse
  | c :: cs, st, field, row, acc =>
    match st with
    | CsvState.startField =>
      if c == '"' then csvAux cs CsvState.inQuoted field row acc
      else if c == ',' then
        csvAux cs CsvState.startField [] (String.mk field.reverse :: row) acc
      else if c == '\n' then
        csvAux cs CsvState.startField [] [] (csvCloseRow CsvState.startField field row :: acc)
      else if c == '\r' then
        csvAux (dropLfAfterCr cs) CsvState.startField [] []
          (csvCloseRow CsvState.startField field row :: acc)
      else csvAux cs CsvState.inField (c :: field) row acc
    | CsvState.inField =>
      if c == ',' then
        csvAux cs CsvState.startField [] (String.mk field.reverse :: row) acc
      else if c == '\n' then
        csvAux cs CsvState.startField [] [] (csvCloseRow CsvState.inField field row :: acc)
      else if c == '\r' then
        csvAux (dropLfAfterCr cs) CsvState.startField [] []
          (csvCloseRow CsvState.inField field row :: acc)
      else csvAux cs CsvState.inField (c :: field) row acc
    | CsvState.inQuoted =>
      if c == '"' then csvAux cs CsvState.quoteInQuoted field row acc
      else csvAux cs CsvState.inQuoted (c :: field) row acc
    | CsvState.quoteInQuoted =>
      if c == '"' then csvAux cs CsvState.inQuoted ('"' :: field) row acc
      else if c == ',' then
        csvAux cs CsvState.startField [] (String.mk field.reverse :: row) acc
      else if c == '\n' then
        csvAux cs CsvState.startField [] [] (csvCloseRow CsvState.quoteInQuoted field row :: acc)
      else if c == '\r' then
        csvAux (dropLfAfterCr cs) CsvState.startField [] []
          (csvCloseRow CsvState.quoteInQuoted field row :: acc)
      else csvAux cs CsvState.inField (c :: field) row acc
termination_by cs _ _ _ _ => cs.length
decreasing_by all_goals
  (simp only [List.length_cons]
   first
     | omega
     | exact Nat.lt_succ_of_le (dropLfAfterCr_length _))

/-- Model of `list(csv.reader(io.StringIO(text)))`. -/
def parseCSV (text : String) : List (List String) :=
  csvAux text.toList CsvState.startField [] [] []

/-- Universal-newline translation performed by
`io.StringIO(text, newline=None)`: `\r\n` and `\r` become `\n`. -/
def universalNewlines : List Char → List Char
  | [] => []
  | '\r' :: '\n' :: rest => '\n' :: universalNewlines rest
  | '\r' :: rest => '\n' :: universalNewlines rest
  | c :: rest => c :: universalNewlines rest

/-! ### `process_csv_file`, lines 63-86, full pipeline

Line 65 decodes the uploaded bytes with `decode("utf-8")` — the STRICT
decoder, unlike the archive and generic paths — wrapped in
`io.StringIO(…, newline=None)` (universal newlines), then `csv.reader`
parses the text and lines 68-86 extract the structure.  A decode failure
(`UnicodeDecodeError`) propagates out of the function; it is modelled as
the `Except.error` branch. -/

def process_csv_file (data : List Nat) : Except String CSVContent :=
  match pyDecodeStrict data with
  | none => Except.error "UnicodeDecodeError"
  | some text =>
    Except.ok (process_csv_rows (parseCSV (String.mk (universalNewlines text.toList))))

/-! ### `process_zip_file`, lines 27-61 -/

/-- The per-entry dictionary stored by `process_zip_file` (lines 45-59):
key `'type'` (always `'csv'`), optional key `'direct_answer'`, and keys
`'headers'`, `'data'`, `'raw'`. -/
structure ZipEntryContent where
  type : String
  direct_answer : Option String
  headers : List String
  data : List (List String)
  raw : String
  deriving Repr, DecidableEq

/-- Lines 34-59, one archive entry: entries not ending in `.csv`
(case-insensitively) are skipped; a `.csv` entry is decoded with
`errors='ignore'`, parsed, and stored with a `direct_answer` exactly when
`rows`, `'answer' in rows[0]`, `len(rows) > 1` and
`len(rows[1]) > answer_idx` all hold. -/
def process_zip_entry (name : String) (data : List Nat) :
    Option (String × ZipEntryContent) :=
  if (name.toList.map Char.toLower).reverse.take 4 == ['v', 's', 'c', '.'] then
    let csv_content := pyDecodeIgnore data
    let rows := parseCSV csv_content
    let withDirect : Option ZipEntryContent :=
      match rows with
      | r0 :: r1 :: rest =>
        if "answer" ∈ r0 then
          let answer_idx := r0.indexOf "answer"
          if answer_idx < r1.length then
            some ⟨"csv", some (r1.getD answer_idx ""), r0, r1 :: rest, csv_content⟩
          else none
        else none
      | _ => none
    match withDirect with
    | some c => some (name, c)
    | none =>
      some (name, ⟨"csv", none, rows.headD [], rows.drop 1, csv_content⟩)
  else none

/-- The loop of lines 34-59 over `zip_ref.infolist()`: the stored mapping,
in enumeration order (Python dicts iterate in insertion order). -/
def process_zip_entries (entries : List (String × List Nat)) :
    List (String × ZipEntryContent) :=
  entries.filterMap fun e => process_zip_entry e.1 e.2

/-- Observable outcome of one execution of `process_zip_file`: the returned
mapping or the propagated exception, together with whether the
`NamedTemporaryFile` acquired at line 29 still exists when the call
returns.  The file is created with `delete=False`, so leaving the `with`
block does not remove it; only the explicit `os.unlink` at line 60 does. -/
structure ZipRunResult where
  result : Except String (List (String × ZipEntryContent))
  temp_released : Bool
  deriving Repr

/-- Lines 27-61.  The input is the outcome of `zipfile.ZipFile` on the
uploaded bytes (the zip container format itself is the library's concern):
`Except.ok entries` when the bytes are a well-formed archive with the given
entry list, `Except.error` when `zipfile.ZipFile` raises `BadZipFile`.
On the error path the exception propagates before line 60's `os.unlink`,
and `delete=False` means the context manager does not remove the file, so
`temp_released` is `false`; on the success path the loop body never raises
(lossy decode, total parse, guarded indexing) and line 60 unlinks. -/
def process_zip_file (archive : Except String (List (String × List Nat))) :
    ZipRunResult :=
  match archive with
  | Except.error e => ⟨Except.error e, false⟩
  | Except.ok entries => ⟨Except.ok (process_zip_entries entries), true⟩

/-! ### `allowed_file` (lines 24-25) and `extract_data_from_file` (lines 88-115) -/

/-- The `ALLOWED_EXTENSIONS` set (line 22). -/
def allowed_extensions : List String := ["csv", "zip", "txt", "pdf", "xlsx", "json"]

/-- Model of `filename.rsplit('.', 1)[1].lower()`: the text after the last `.`,
lowercased.  Only meaningful when the name contains a dot (Python guards
the call accordingly); without a dot this returns `""`. -/
def fileExt (filename : String) : String :=
  if '.' ∈ filename.toList then
    String.mk (((filename.toList.reverse.takeWhile (· ≠ '.')).reverse).map Char.toLower)
  else ""

/-- Lines 24-25: `'.' in filename and filename.rsplit('.', 1)[1].lower()
in ALLOWED_EXTENSIONS`. -/
def allowed_file (filename : String) : Bool :=
  ('.' ∈ filename.toList) && (fileExt filename ∈ allowed_extensions)

/-- The uniform `FileData` result of `extract_data_from_file`
(lines 96-115): a tagged union over the zip, csv and generic branches. -/
inductive FileData where
  | zip (filename : String) (contents : List (String × ZipEntryContent))
  | csv (filename : String) (content : CSVContent)
  | generic (file_type : String) (filename : String) (content : String)
  deriving Repr, DecidableEq

/-- An uploaded file as the dispatcher sees it: declared name, raw bytes,
and the result of handing those bytes to `zipfile.ZipFile` (entry list on
success, `BadZipFile` message otherwise) — the zip container parser is a
library collaborator, so its verdict on the bytes is part of the input. -/
structure UploadedFile where
  filename : String
  bytes : List Nat
  archive : Except String (List (String × List Nat))

/-- The `secure_filename` sanitizer from werkzeug — an HTTP-layer collaborator outside
this repository; on safe names it is the identity, which is how it is
modelled here. -/
def secure_filename (s : String) : String := s

/-- Lines 88-115: returns `none` for a missing/unnamed file, otherwise
dispatches on the (lowercased, last-dot) extension of the secured name:
`zip` → `process_zip_file`, `csv` → `process_csv_file`, anything else →
lossy text decode.  Exceptions from the extractors propagate
(`Except.error`). -/
def extract_data_from_file (f : UploadedFile) : Except String (Option FileData) :=
  if f.filename == "" then Except.ok none
  else
    let filename := secure_filename f.filename
    let file_extension := fileExt filename
    if file_extension == "zip" then
      match (process_zip_file f.archive).result with
      | Except.error e => Except.error e
      | Except.ok contents => Except.ok (some (FileData.zip filename contents))
    else if file_extension == "csv" then
      match process_csv_file f.bytes with
      | Except.error e => Except.error e
      | Except.ok c => Except.ok (some (FileData.csv filename c))
    else
      Except.ok (some (FileData.generic file_extension filename (pyDecodeIgnore f.bytes)))

/-- File handling of the endpoint, lines 238-247 of `solve_question`. -/
inductive UploadOutcome where
  | noFile
  | rejected (error : String) (status : Nat)
  | extractionFailed (error : String) (status : Nat)
  | extracted (fd : Option FileData)
  deriving Repr, DecidableEq

/-- Lines 238-247: a file with a falsy name is ignored; a name failing
`allowed_file` is rejected with status 400 before any extractor runs; an
extractor exception becomes a 400 `"Failed to process uploaded file"`;
otherwise the extracted `FileData` flows on to the resolver. -/
def handle_upload (f : Option UploadedFile) : UploadOutcome :=
  match f with
  | none => UploadOutcome.noFile
  | some f =>
    if f.filename == "" then UploadOutcome.noFile
    else if !(allowed_file f.filename) then
      UploadOutcome.rejected "File type not allowed" 400
    else
      match extract_data_from_file f with
      | Except.error _ => UploadOutcome.extractionFailed "Failed to process uploaded file" 400
      | Except.ok fd => UploadOutcome.extracted fd

/-! ### Answer resolver: `get_answer_from_ai`, lines 117-147

The function first looks for direct answers (lines 121-132), then checks
credentials (lines 134-135), then repeats the direct-answer checks with
slightly different guards (lines 137-147), and only then builds the prompt
and calls the external client.  `Resolution` records which of these exits
is taken; `invokeModel` means control reaches the `requests.post` call. -/

/-- Process configuration: `AI_PROXY_TOKEN` (may be unset) and
`AI_PROXY_URL` (has a default, so always a string, lines 19-20). -/
structure Config where
  ai_proxy_token : Option String
  ai_proxy_url : String
  deriving Repr, DecidableEq

/-- How one call to `get_answer_from_ai` exits before (or at) the external
call: an early direct answer (lines 126/132), the configuration failure
(line 135), a late direct answer from the duplicated checks
(lines 139/147), or proceeding to the model request (line 199). -/
inductive Resolution where
  | direct (answer : String)
  | configError
  | lateDirect (answer : String)
  | invokeModel
  deriving Repr, DecidableEq

/-- Line 144-146 guard of the duplicated zip check:
`content.get('type') == 'csv' and 'answer' in content.get('headers', [])`
and then `content.get('data')` truthy and
`len(content['data'][0]) > answer_idx`. -/
def zipLateGuard (c : ZipEntryContent) : Bool :=
  c.type == "csv" && "answer" ∈ c.headers &&
    !c.data.isEmpty && c.headers.indexOf "answer" < (c.data.headD []).length

/-- Lines 121-132, the pre-credentials direct-answer checks: the first zip
entry with a truthy `direct_answer` (the loop of lines 124-126 `return`s on
its first hit), or a csv file's truthy `direct_answer`. -/
def earlyDirect : Option FileData → Option String
  | some (FileData.zip _ contents) =>
    (contents.find? fun e => truthyOpt e.2.direct_answer).map
      fun e => e.2.direct_answer.getD ""
  | some (FileData.csv _ c) =>
    if truthyOpt c.direct_answer then some (c.direct_answer.getD "") else none
  | _ => none

/-- Lines 137-147, the duplicated post-credentials checks: the csv check of
line 138 (same guard as line 131), and the zip loop of lines 142-147, which
`return`s `content['data'][0][answer_idx]` for its first entry satisfying
`zipLateGuard` — without requiring that cell to be non-empty. -/
def lateDirectHit : Option FileData → Option String
  | some (FileData.csv _ c) =>
    if truthyOpt c.direct_answer then some (c.direct_answer.getD "") else none
  | some (FileData.zip _ contents) =>
    (contents.find? fun e => zipLateGuard e.2).map
      fun e => (e.2.data.headD []).getD (e.2.headers.indexOf "answer") ""
  | _ => none

/-- Lines 121-147 of `get_answer_from_ai`: every exit before the external
request, in the order the source takes them. -/
def get_answer_resolution (cfg : Config) (file_data : Option FileData) :
    Resolution :=
  match earlyDirect file_data with
  | some a => Resolution.direct a
  | none =>
    if !(truthyOpt cfg.ai_proxy_token) || cfg.ai_proxy_url == "" then
      Resolution.configError
    else
      match lateDirectHit file_data with
      | some a => Resolution.lateDirect a
      | none => Resolution.invokeModel

/-- The body returned to the HTTP layer: `{"answer": …}` or `{"error": …}`. -/
inductive ApiResult where
  | answer (s : String)
  | error (s : String)
  deriving Repr, DecidableEq

/-- The `(body, status)` pair produced by the exits of lines 121-147;
`none` when control instead proceeds to the external request. -/
def resolution_response : Resolution → Option (ApiResult × Nat)
  | Resolution.direct a => some (ApiResult.answer a, 200)
  | Resolution.configError =>
    some (ApiResult.error "AI Proxy Token or URL not configured", 500)
  | Resolution.lateDirect a => some (ApiResult.answer a, 200)
  | Resolution.invokeModel => none

/-- Does the `FileData` contain a non-empty direct answer (the condition the
early checks of lines 121-132 test for)? -/
def hasDirectAnswer : Option FileData → Bool
  | some (FileData.zip _ contents) =>
    contents.any fun e => truthyOpt e.2.direct_answer
  | some (FileData.csv _ c) => truthyOpt c.direct_answer
  | _ => false

/-! ### External response handling: lines 198-219

The response body of the external client is a dynamically-typed JSON
value; `PyVal` models it, and the chained
`data.get('choices', [{}])[0].get('message', {}).get('content', '')`
is modelled operation by operation, with `Except.error` standing for the
exception each Python operation would raise on an ill-typed receiver. -/

/-- A Python/JSON value as `response.json()` can produce it. -/
inductive PyVal where
  | str (s : String)
  | num (n : Int)
  | boolean (b : Bool)
  | nullv
  | list (xs : List PyVal)
  | dict (kvs : List (String × PyVal))

/-- Model of `d.get(key, default)` on a dict, first (unique-key) match. -/
def pyDictGet (kvs : List (String × PyVal)) (key : String) (default : PyVal) :
    PyVal :=
  match kvs.find? fun kv => kv.1 == key with
  | some kv => kv.2
  | none => default

/-- Model of `v.get(key, default)`: only dicts have `.get`; any other receiver
raises `AttributeError`. -/
def pyGet (v : PyVal) (key : String) (default : PyVal) : Except String PyVal :=
  match v with
  | PyVal.dict kvs => Except.ok (pyDictGet kvs key default)
  | _ => Except.error "AttributeError"

/-- Model of `v[0]`: first element of a list (or `IndexError` when empty); string
indexing yields a one-character string; `d[0]` on a dict is a `KeyError`;
anything else is not subscriptable. -/
def pyIndex0 (v : PyVal) : Except String PyVal :=
  match v with
  | PyVal.list [] => Except.error "IndexError"
  | PyVal.list (x :: _) => Except.ok x
  | PyVal.str s =>
    match s.toList with
    | [] => Except.error "IndexError"
    | c :: _ => Except.ok (PyVal.str (String.mk [c]))
  | PyVal.dict _ => Except.error "KeyError"
  | _ => Except.error "TypeError"

/-- Line 204: the chained lookup with its silent defaults `[{}]`, `{}`, `''`. -/
def extractAnswerVal (data : PyVal) : Except String PyVal := do
  let choices ← pyGet data "choices" (PyVal.list [PyVal.dict []])
  let first ← pyIndex0 choices
  let message ← pyGet first "message" (PyVal.dict [])
  pyGet message "content" (PyVal.str "")

/-- Both `.strip()` and `.split` exist only on strings; any other value makes
line 207 raise `AttributeError`. -/
def pyAsStr : PyVal → Except String String
  | PyVal.str s => Except.ok s
  | _ => Except.error "AttributeError"

/-- Model of `s.strip()`: drop leading and trailing whitespace. -/
def pyStripWs (s : String) : String :=
  String.mk (((s.toList.dropWhile Char.isWhitespace).reverse.dropWhile
    Char.isWhitespace).reverse)

/-- Model of `s.strip(ch)`: drop leading and trailing copies of `ch`. -/
def pyStripChar (ch : Char) (s : String) : String :=
  String.mk (((s.toList.dropWhile (· == ch)).reverse.dropWhile (· == ch)).reverse)

/-- Lines 207-212: strip whitespace, strip backticks, and keep only the
first line (re-stripped) when the answer spans several lines. -/
def cleanupAnswer (s : String) : String :=
  let s1 := pyStripWs s
  let s2 := pyStripChar '`' s1
  if '\n' ∈ s2.toList then
    pyStripWs (String.mk (s2.toList.takeWhile (· ≠ '\n')))
  else s2

/-- Lines 204-212 as one pipeline: the chained lookup, the requirement that
the result support `.strip` (be a string), and the cleanup. -/
def extract_answer_string (body : PyVal) : Except String String := do
  let v ← extractAnswerVal body
  let s ← pyAsStr v
  pure (cleanupAnswer s)

/-- Outcome of `requests.post` + `raise_for_status` + `response.json()`:
a transport/HTTP failure (`requests.exceptions.RequestException`), a JSON
parse failure (raises a non-`RequestException`), or a parsed body. -/
inductive TransportOutcome where
  | requestError (msg : String)
  | jsonError (msg : String)
  | ok (body : PyVal)

/-- Lines 198-219: the `try`/`except` around the external call.
`RequestException` (from `post` or `raise_for_status`) becomes
`"AI service error: …"` with 500; any other exception — including the
ill-typed-shape errors raised while extracting the answer — becomes
`"Unexpected error: …"` with 500; otherwise the cleaned-up answer is
returned with 200. -/
def handle_model_response (t : TransportOutcome) : ApiResult × Nat :=
  match t with
  | TransportOutcome.requestError m => (ApiResult.error ("AI service error: " ++ m), 500)
  | TransportOutcome.jsonError m => (ApiResult.error ("Unexpected error: " ++ m), 500)
  | TransportOutcome.ok body =>
    match extract_answer_string body with
    | Except.ok a => (ApiResult.answer a, 200)
    | Except.error m => (ApiResult.error ("Unexpected error: " ++ m), 500)

/-! ## Theorems -/

/-- A `for`-loop that `return`s on the first element satisfying `p` hits
exactly the first such element: `find?` over a split list. -/
theorem find?_first_of_split {α : Type} (p : α → Bool) (pre : List α) (e : α)
    (post : List α) (hpre : ∀ x ∈ pre, p x = false) (he : p e = true) :
    (pre ++ e :: post).find? p = some e := by
  induction pre with
  | nil => simp [List.find?, he]
  | cons a as ih =>
    have ha := hpre a (by simp)
    simp only [List.cons_append, List.find?, ha]
    exact ih fun x hx => hpre x (by simp [hx])

/-- C1.  Tabular Extractor direct-answer postcondition: on any parsed row
list, when the header row contains a field literally `"answer"` (at first
occurrence index `headers.indexOf "answer"`) and the first data row has a
cell at that index, `direct_answer` is exactly that cell; when the header
is missing, or there is no data row, or the first data row is too short,
`direct_answer` is `none` — and `process_csv_rows` is a total function, so
the extraction never raises in either case. -/
theorem c1_csv_direct_answer (rows : List (List String)) :
    (∀ row0 rest, rows.drop 1 = row0 :: rest →
       "answer" ∈ rows.headD [] →
       (rows.headD []).indexOf "answer" < row0.length →
       (process_csv_rows rows).direct_answer =
         row0.get? ((rows.headD []).indexOf "answer"))
    ∧ ("answer" ∉ rows.headD [] → (process_csv_rows rows).direct_answer = none)
    ∧ (rows.drop 1 = [] → (process_csv_rows rows).direct_answer = none)
    ∧ (∀ row0 rest, rows.drop 1 = row0 :: rest →
       row0.length ≤ (rows.headD []).indexOf "answer" →
       (process_csv_rows rows).direct_answer = none) := by
  cases rows with
  | nil =>
    refine ⟨?_, ?_, ?_, ?_⟩
    · intro row0 rest hdrop; simp at hdrop
    · intro _; simp [process_csv_rows]
    · intro _; simp [process_csv_rows]
    · intro row0 rest hdrop; simp at hdrop
  | cons hd tl =>
    refine ⟨?_, ?_, ?_, ?_⟩
    · intro row0 rest hdrop hmem hlt
      simp only [List.headD_cons] at hmem hlt ⊢
      simp only [List.drop_succ_cons, List.drop_zero] at hdrop
      subst hdrop
      simp [process_csv_rows, hmem, hlt, Int.toNat_natCast, Int.natCast_nonneg]
    · intro hmem
      simp only [List.headD_cons] at hmem ⊢
      simp [process_csv_rows, hmem]
    · intro hdrop
      simp only [List.drop_succ_cons, List.drop_zero] at hdrop
      simp [process_csv_rows, hdrop]
    · intro row0 rest hdrop hle
      simp only [List.headD_cons] at hle ⊢
      simp only [List.drop_succ_cons, List.drop_zero] at hdrop
      subst hdrop
      by_cases hmem : "answer" ∈ hd
      · simp [process_csv_rows, hmem, Int.toNat_natCast, Nat.not_lt.mpr hle]
      · simp [process_csv_rows, hmem]

/-- Witness for C1 at a concrete input: headers `[id, answer]`, first data
row `[1, 42]` gives `direct_answer = 42`. -/
theorem c1_csv_direct_answer_witness :
    (process_csv_rows [["id", "answer"], ["1", "42"]]).direct_answer = some "42" :=
  ((c1_csv_direct_answer [["id", "answer"], ["1", "42"]]).1 ["1", "42"] [] rfl
    (by decide) (by decide)).trans (by decide)

/-- C2.  Answer Resolver zip short-circuit: for a zip `FileData` whose
contents (in enumeration order) are `pre ++ e :: post` with every entry of
`pre` lacking a non-empty `direct_answer` and `e` having one, the resolver
returns `e`'s direct answer with status 200 — under any configuration —
and control never reaches the external model call. -/
theorem c2_zip_short_circuit (cfg : Config) (fn : String)
    (pre : List (String × ZipEntryContent)) (e : String × ZipEntryContent)
    (post : List (String × ZipEntryContent))
    (hpre : ∀ x ∈ pre, truthyOpt x.2.direct_answer = false)
    (he : truthyOpt e.2.direct_answer = true) :
    get_answer_resolution cfg (some (FileData.zip fn (pre ++ e :: post))) =
      Resolution.direct (e.2.direct_answer.getD "") ∧
    resolution_response
        (get_answer_resolution cfg (some (FileData.zip fn (pre ++ e :: post)))) =
      some (ApiResult.answer (e.2.direct_answer.getD ""), 200) ∧
    get_answer_resolution cfg (some (FileData.zip fn (pre ++ e :: post))) ≠
      Resolution.invokeModel := by
  have hf := find?_first_of_split (fun x => truthyOpt x.2.direct_answer) pre e post hpre he
  refine ⟨?_, ?_, ?_⟩ <;>
    simp [get_answer_resolution, earlyDirect, hf, resolution_response]

/-- Witness for C2: a two-entry archive whose first entry has no direct
answer and whose second has `"42"`. -/
theorem c2_zip_short_circuit_witness :
    get_answer_resolution ⟨some "tok", "https://u"⟩
        (some (FileData.zip "f.zip"
          ([("a.csv", ⟨"csv", none, ["id"], [["1"]], "id\n1\n"⟩)] ++
            ("b.csv", ⟨"csv", some "42", ["id", "answer"], [["1", "42"]],
              "id,answer\n1,42\n"⟩) :: []))) =
      Resolution.direct "42" :=
  (c2_zip_short_circuit ⟨some "tok", "https://u"⟩ "f.zip"
    [("a.csv", ⟨"csv", none, ["id"], [["1"]], "id\n1\n"⟩)]
    ("b.csv", ⟨"csv", some "42", ["id", "answer"], [["1", "42"]], "id,answer\n1,42\n"⟩)
    [] (by decide) (by decide)).1

/-- C3 counterexample.  The claim says the Tabular Extractor never fails on
the decode step, even on invalid UTF-8.  But line 65 uses
`decode("utf-8")` with no error handler: on the one-byte stream `0xFF`
(invalid in UTF-8) the decode raises `UnicodeDecodeError` and
`process_csv_file` fails; the dispatcher then surfaces a 400
file-processing failure. -/
theorem c3_counterexample :
    process_csv_file [0xFF] = Except.error "UnicodeDecodeError" ∧
    handle_upload (some ⟨"bad.csv", [0xFF], Except.error "not a zip"⟩) =
      UploadOutcome.extractionFailed "Failed to process uploaded file" 400 := by
  constructor
  · simp [process_csv_file, pyDecodeStrict, utf8DecodeAux, utf8Step]
  · simp [handle_upload, allowed_file, fileExt, allowed_extensions,
      extract_data_from_file, secure_filename, process_csv_file, pyDecodeStrict,
      utf8DecodeAux, utf8Step]

/-- C3 amended.  The Tabular Extractor's decode step is STRICT, not lossy:
`process_csv_file` raises (`UnicodeDecodeError`) exactly on byte streams
containing an invalid UTF-8 sequence, and succeeds — never raising — on
every valid stream.  (The lossy `errors='ignore'` fallback is used by the
archive and generic extractors, not by this one.) -/
theorem c3_strict_decode (data : List Nat) :
    process_csv_file data = Except.error "UnicodeDecodeError" ↔
      (utf8DecodeAux data).2 = false := by
  simp only [process_csv_file, pyDecodeStrict]
  by_cases h : (utf8DecodeAux data).2
  · simp [h]
  · simp [h]

/-- C4.  Evaluation at the failing input: when `zipfile.ZipFile` raises on
a malformed archive, `process_zip_file` propagates the exception without
reaching line 60's `os.unlink`, and — the temporary file having been
created with `delete=False` — the temporary storage is NOT released,
contradicting the claimed guaranteed cleanup on all exit paths.  (On the
success path it is released.) -/
theorem c4_temp_file_leak :
    (process_zip_file (Except.error "BadZipFile")).temp_released = false ∧
    (process_zip_file (Except.ok [])).temp_released = true := ⟨rfl, rfl⟩

/-- The pre-credentials checks find nothing exactly when no contained
content has a non-empty (truthy) `direct_answer`. -/
theorem earlyDirect_eq_none (fd : Option FileData) :
    earlyDirect fd = none ↔ hasDirectAnswer fd = false := by
  cases fd with
  | none => simp [earlyDirect, hasDirectAnswer]
  | some f =>
    cases f with
    | zip fn contents =>
      simp [earlyDirect, hasDirectAnswer, Option.map_eq_none', List.find?_eq_none,
        List.any_eq_false]
    | csv fn c =>
      by_cases ht : truthyOpt c.direct_answer <;>
        simp [earlyDirect, hasDirectAnswer, ht]
    | generic t fn c => simp [earlyDirect, hasDirectAnswer]

/-- C5 counterexample.  A zip entry whose `answer` column exists but whose
first data-row cell at that column is the EMPTY string: no contained
content has a non-empty `direct_answer`, yet with credentials configured
the resolver returns the empty-string answer `""` with status 200 through
the duplicated post-credentials zip check (lines 142-147), instead of
proceeding to the model call.  The first conjunct shows the archive is
reachable: it is what `process_zip_file` stores for a zip containing
`a.csv` with text `"answer,x\n,y\n"`. -/
theorem c5_counterexample :
    process_zip_entries
        [("a.csv", [97, 110, 115, 119, 101, 114, 44, 120, 10, 44, 121, 10])] =
      [("a.csv", ⟨"csv", some "", ["answer", "x"], [["", "y"]], "answer,x\n,y\n"⟩)] ∧
    hasDirectAnswer (some (FileData.zip "f.zip"
        [("a.csv", ⟨"csv", some "", ["answer", "x"], [["", "y"]], "answer,x\n,y\n"⟩)])) =
      false ∧
    resolution_response (get_answer_resolution ⟨some "tok", "https://u"⟩
        (some (FileData.zip "f.zip"
          [("a.csv", ⟨"csv", some "", ["answer", "x"], [["", "y"]], "answer,x\n,y\n"⟩)]))) =
      some (ApiResult.answer "", 200) := by
  refine ⟨?_, rfl, rfl⟩
  simp [process_zip_entries, process_zip_entry, pyDecodeIgnore, utf8DecodeAux,
    utf8Step, parseCSV, csvAux, csvCloseRow, dropLfAfterCr]

/-- C5 amended.  For every `FileData` in which no contained content has a
non-empty `direct_answer`, the resolver never returns an answer through
the pre-credentials direct check; if it still returns an answer without
calling the model, it does so through the post-credentials zip check —
returning, for some zip entry whose headers contain `"answer"` and whose
first data row reaches that column, the (possibly empty) cell at that
column; in every other case it proceeds to the credentials check and model
call. -/
theorem c5_no_direct_answer (cfg : Config) (fd : Option FileData)
    (h : hasDirectAnswer fd = false) :
    (∀ a, get_answer_resolution cfg fd ≠ Resolution.direct a) ∧
    (∀ a, get_answer_resolution cfg fd = Resolution.lateDirect a →
       ∃ fn contents e, fd = some (FileData.zip fn contents) ∧ e ∈ contents ∧
         zipLateGuard e.2 = true ∧
         a = (e.2.data.headD []).getD (e.2.headers.indexOf "answer") "") := by
  have hearly : earlyDirect fd = none := (earlyDirect_eq_none fd).mpr h
  constructor
  · intro a hcontra
    simp only [get_answer_resolution, hearly] at hcontra
    by_cases hcfg : (!(truthyOpt cfg.ai_proxy_token) || cfg.ai_proxy_url == "") = true
    · rw [if_pos hcfg] at hcontra; cases hcontra
    · rw [if_neg hcfg] at hcontra
      cases hlate : lateDirectHit fd with
      | none => rw [hlate] at hcontra; cases hcontra
      | some b => rw [hlate] at hcontra; cases hcontra
  · intro a hres
    simp only [get_answer_resolution, hearly] at hres
    by_cases hcfg : (!(truthyOpt cfg.ai_proxy_token) || cfg.ai_proxy_url == "") = true
    · rw [if_pos hcfg] at hres; cases hres
    · rw [if_neg hcfg] at hres
      cases hlate : lateDirectHit fd with
      | none => rw [hlate] at hres; cases hres
      | some b =>
        rw [hlate] at hres
        cases hres
        cases fd with
        | none => simp [lateDirectHit] at hlate
        | some f =>
          cases f with
          | generic t fn c => simp [lateDirectHit] at hlate
          | csv fn c =>
            simp only [hasDirectAnswer] at h
            simp [lateDirectHit, h] at hlate
          | zip fn contents =>
            simp only [lateDirectHit] at hlate
            cases hfind : contents.find? fun e => zipLateGuard e.2 with
            | none => rw [hfind] at hlate; cases hlate
            | some e =>
              rw [hfind] at hlate
              simp only [Option.map_some'] at hlate
              cases hlate
              have hg : zipLateGuard e.2 = true := by
                simpa using List.find?_some hfind
              exact ⟨fn, contents, e, rfl, List.mem_of_find?_eq_some hfind, hg, rfl⟩

/-- Witness for C5's amended theorem at a concrete archive that has a
(truthy-empty) entry but no non-empty direct answer. -/
theorem c5_no_direct_answer_witness :
    get_answer_resolution ⟨some "tok", "https://u"⟩
        (some (FileData.zip "f.zip"
          [("a.csv", ⟨"csv", some "", ["answer", "x"], [["", "y"]], "answer,x\n,y\n"⟩)])) ≠
      Resolution.direct "" :=
  (c5_no_direct_answer ⟨some "tok", "https://u"⟩
    (some (FileData.zip "f.zip"
      [("a.csv", ⟨"csv", some "", ["answer", "x"], [["", "y"]], "answer,x\n,y\n"⟩)]))
    (by rfl)).1 ""

/-- C6 counterexample.  The claim says the resolver never returns a
success result built from a malformed response.  But a response body that
is a dict with no `choices` key (a malformed shape) sails through the
chained `.get` defaults of line 204 — `[{}]`, `{}`, `''` — and produces the
SUCCESS result `{"answer": ""}` with status 200 instead of an
`ExternalServiceError`. -/
theorem c6_counterexample :
    handle_model_response (TransportOutcome.ok (PyVal.dict [])) =
      (ApiResult.answer "", 200) := rfl

/-- C6 amended.  Transport-level failures convert to
`"AI service error: …"` (500) and every exception raised while decoding or
extracting converts to `"Unexpected error: …"` (500) — no raw exception
ever reaches the caller, the handler always returns a result pair; BUT a
dict response merely lacking the `choices`/`message`/`content` keys is not
failed closed: the chained defaults make it a 200 success (with content
defaulting to the empty string), as the counterexample shows. -/
theorem c6_failure_conversion :
    (∀ m, handle_model_response (TransportOutcome.requestError m) =
       (ApiResult.error ("AI service error: " ++ m), 500)) ∧
    (∀ m, handle_model_response (TransportOutcome.jsonError m) =
       (ApiResult.error ("Unexpected error: " ++ m), 500)) ∧
    (∀ body, (∃ a, handle_model_response (TransportOutcome.ok body) =
          (ApiResult.answer a, 200)) ∨
       (∃ m, handle_model_response (TransportOutcome.ok body) =
          (ApiResult.error ("Unexpected error: " ++ m), 500))) := by
  refine ⟨fun m => rfl, fun m => rfl, fun body => ?_⟩
  cases hx : extract_answer_string body with
  | ok a => exact Or.inl ⟨a, by simp [handle_model_response, hx]⟩
  | error m => exact Or.inr ⟨m, by simp [handle_model_response, hx]⟩

/-- A truthy optional string holds a non-empty string. -/
theorem truthyOpt_true {o : Option String} (h : truthyOpt o = true) :
    o.getD "" ≠ "" := by
  cases o with
  | none => simp [truthyOpt] at h
  | some s => simp [truthyOpt] at h; simpa using h

/-- When some contained content has a non-empty `direct_answer`, the
pre-credentials checks return one (and it is non-empty). -/
theorem earlyDirect_some (fd : Option FileData) (h : hasDirectAnswer fd = true) :
    ∃ a, a ≠ "" ∧ earlyDirect fd = some a := by
  cases fd with
  | none => simp [hasDirectAnswer] at h
  | some f =>
    cases f with
    | generic t fn c => simp [hasDirectAnswer] at h
    | csv fn c =>
      simp only [hasDirectAnswer] at h
      exact ⟨c.direct_answer.getD "", truthyOpt_true h, by simp [earlyDirect, h]⟩
    | zip fn contents =>
      simp only [hasDirectAnswer] at h
      have hs : (contents.find? fun e => truthyOpt e.2.direct_answer).isSome := by
        rw [List.find?_isSome]
        exact List.any_eq_true.mp h
      obtain ⟨e, hfind⟩ := Option.isSome_iff_exists.mp hs
      have hp : truthyOpt e.2.direct_answer = true := by
        simpa using List.find?_some hfind
      exact ⟨e.2.direct_answer.getD "", truthyOpt_true hp,
        by simp [earlyDirect, hfind]⟩

/-- C7.  The resolver checks for a direct answer BEFORE checking
credentials: whenever the file data carries a non-empty direct answer the
resolver returns it — under any configuration, configured or not; and when
there is no direct answer and the credentials are not configured (falsy
token or falsy URL), the resolver fails with the configuration error,
surfaced as status 500, without ever reaching the external model call. -/
theorem c7_direct_before_credentials (cfg : Config) (fd : Option FileData) :
    (hasDirectAnswer fd = true →
       ∃ a, a ≠ "" ∧ get_answer_resolution cfg fd = Resolution.direct a) ∧
    (hasDirectAnswer fd = false →
       (!(truthyOpt cfg.ai_proxy_token) || cfg.ai_proxy_url == "") = true →
       get_answer_resolution cfg fd = Resolution.configError ∧
       resolution_response (get_answer_resolution cfg fd) =
         some (ApiResult.error "AI Proxy Token or URL not configured", 500) ∧
       get_answer_resolution cfg fd ≠ Resolution.invokeModel) := by
  constructor
  · intro h
    obtain ⟨a, ha, he⟩ := earlyDirect_some fd h
    exact ⟨a, ha, by simp [get_answer_resolution, he]⟩
  · intro h hcfg
    have hearly : earlyDirect fd = none := (earlyDirect_eq_none fd).mpr h
    refine ⟨?_, ?_, ?_⟩ <;>
      simp [get_answer_resolution, hearly, hcfg, resolution_response]

/-- Witness for C7: a csv with direct answer `42` is answered under an
UNCONFIGURED client (token unset); without a file and without a token the
resolver yields the configuration error. -/
theorem c7_direct_before_credentials_witness :
    (∃ a, a ≠ "" ∧
       get_answer_resolution ⟨none, "https://u"⟩
           (some (FileData.csv "d.csv" ⟨["id", "answer"], [["1", "42"]], 1, some "42"⟩)) =
         Resolution.direct a) ∧
    get_answer_resolution ⟨none, "https://u"⟩ none = Resolution.configError := by
  constructor
  · exact (c7_direct_before_credentials ⟨none, "https://u"⟩
      (some (FileData.csv "d.csv" ⟨["id", "answer"], [["1", "42"]], 1, some "42"⟩))).1
      (by decide)
  · exact ((c7_direct_before_credentials ⟨none, "https://u"⟩ none).2
      (by decide) (by decide)).1

/-- C8.  Round-trip on archive entries: every entry stored by
`process_zip_file` keeps its raw source text, and re-parsing that raw text
with the tabular parsing rule reproduces exactly the stored header
sequence and data-row sequence. -/
theorem c8_zip_roundtrip (entries : List (String × List Nat)) (name : String)
    (c : ZipEntryContent)
    (h : (name, c) ∈ process_zip_entries entries) :
    c.headers = (parseCSV c.raw).headD [] ∧
    c.data = (parseCSV c.raw).drop 1 := by
  rw [process_zip_entries, List.mem_filterMap] at h
  obtain ⟨⟨n0, bytes⟩, hmem, hpe⟩ := h
  simp only [process_zip_entry] at hpe
  split at hpe
  · split at hpe
    · rename_i c' heq
      injection hpe with hpair
      injection hpair with hname hc
      subst hc
      split at heq
      · rename_i r0 r1 rest hrows
        split at heq
        · split at heq
          · injection heq with hc'
            subst hc'
            simp [hrows]
          · cases heq
        · cases heq
      · cases heq
    · injection hpe with hpair
      injection hpair with hname hc
      subst hc
      simp
  · cases hpe

/-- Witness for C8 at a concrete archive: one entry `a.csv` with bytes of
`"id,answer\n1,42\n"`. -/
theorem c8_zip_roundtrip_witness :
    (("a.csv", (⟨"csv", some "42", ["id", "answer"], [["1", "42"]],
        "id,answer\n1,42\n"⟩ : ZipEntryContent)) ∈
      process_zip_entries
        [("a.csv", [105, 100, 44, 97, 110, 115, 119, 101, 114, 10, 49, 44, 52, 50, 10])]) ∧
    (["id", "answer"] = (parseCSV "id,answer\n1,42\n").headD [] ∧
     [["1", "42"]] = (parseCSV "id,answer\n1,42\n").drop 1) := by
  have hmem : ("a.csv", (⟨"csv", some "42", ["id", "answer"], [["1", "42"]],
      "id,answer\n1,42\n"⟩ : ZipEntryContent)) ∈
      process_zip_entries
        [("a.csv", [105, 100, 44, 97, 110, 115, 119, 101, 114, 10, 49, 44, 52, 50, 10])] := by
    simp [process_zip_entries, process_zip_entry, pyDecodeIgnore, utf8DecodeAux,
      utf8Step, parseCSV, csvAux, csvCloseRow, dropLfAfterCr]
  exact ⟨hmem, c8_zip_roundtrip _ _ _ hmem⟩

/-- C9.  Dispatcher rejection precedes extraction: an uploaded filename
whose (case-insensitively lowercased, after the last dot) extension is
outside `{csv, zip, txt, pdf, xlsx, json}` is rejected with status 400,
and no extractor ever runs on the file's bytes (the outcome carries no
`FileData`). -/
theorem c9_dispatcher_rejects (f : UploadedFile)
    (hdot : '.' ∈ f.filename.toList)
    (hext : fileExt f.filename ∉ allowed_extensions) :
    handle_upload (some f) = UploadOutcome.rejected "File type not allowed" 400 ∧
    ∀ fd, handle_upload (some f) ≠ UploadOutcome.extracted fd := by
  have hne : f.filename ≠ "" := by
    intro hz; rw [hz] at hdot; simp at hdot
  have hbeq : (f.filename == "") = false := by simpa using hne
  have hallowed : allowed_file f.filename = false := by
    simp [allowed_file, hdot, hext]
  constructor
  · simp [handle_upload, hbeq, hallowed]
  · intro fd
    simp [handle_upload, hbeq, hallowed]

/-- Witness for C9: `virus.exe` is rejected with 400. -/
theorem c9_dispatcher_rejects_witness :
    handle_upload (some ⟨"virus.exe", [77, 90], Except.error "not a zip"⟩) =
      UploadOutcome.rejected "File type not allowed" 400 :=
  (c9_dispatcher_rejects ⟨"virus.exe", [77, 90], Except.error "not a zip"⟩
    (by decide) (by decide)).1

/-- C10.  A filename with no `.` at all fails `allowed_file` (the check
demands a dot-separated extension), so an extensionless upload is never
routed to any extractor. -/
theorem c10_extensionless_rejected (f : UploadedFile)
    (h : '.' ∉ f.filename.toList) :
    allowed_file f.filename = false ∧
    ∀ fd, handle_upload (some f) ≠ UploadOutcome.extracted fd := by
  have h' : '.' ∉ f.filename.data := h
  have hallowed : allowed_file f.filename = false := by
    simp [allowed_file, h']
  refine ⟨hallowed, ?_⟩
  intro fd
  by_cases hfn : (f.filename == "") = true
  · simp [handle_upload, hfn]
  · simp only [Bool.not_eq_true] at hfn
    simp [handle_upload, hfn, hallowed]

/-- Witness for C10: the extensionless name `README`. -/
theorem c10_extensionless_rejected_witness :
    allowed_file "README" = false ∧
    handle_upload (some ⟨"README", [82], Except.error "not a zip"⟩) ≠
      UploadOutcome.extracted none :=
  ⟨(c10_extensionless_rejected ⟨"README", [82], Except.error "not a zip"⟩
      (by decide)).1,
   (c10_extensionless_rejected ⟨"README", [82], Except.error "not a zip"⟩
      (by decide)).2 none⟩

end TdsSolver
